import Mathlib

/-!
Verification of the `LocalExecutionContext` façade in
`contrib/PythonV2/cntk/context.py`.

The file is a shallow embedding of the Python module: the engine objects
(`cntk_py` functions, `sanitize_var_map`, `ValuePtr`) are external
collaborators, modelled abstractly as pure data suppliers (`EngineOp`),
while the control flow of the façade itself (`eval`, the precision
setter, the process-wide `_CONTEXT` registry, `get_context`,
`__enter__`/`__exit__`, `train`/`test`/`write`) is translated line by
line from the source. Machine floats never influence the control flow
we verify, so tensor payloads are modelled over `Rat`.
-/

set_option autoImplicit false

deriving instance DecidableEq for Except

namespace CNTK

/-- NumPy dtypes reachable from this module: `precision_numpy` returns
`np.float32` for precision `"float"` and `np.float64` otherwise. -/
inductive Dtype where
  | float32
  | float64
deriving DecidableEq, Repr

/-- A host-side NumPy array as the façade sees it: a shape, a dtype and a
flat row-major payload. Only shape, dtype and payload identity matter to
the claims, so the payload is a flat list of rationals. -/
structure NpArray where
  shape : List Nat
  dtype : Dtype
  data : List Rat
deriving DecidableEq, Repr

/-- Python's `np_data.reshape(tuple(reversed(np_data.shape)))` from `eval`:
the payload buffer is unchanged, the shape is reversed. -/
def NpArray.reshapeReversed (a : NpArray) : NpArray :=
  { a with shape := a.shape.reverse }

/-- NumPy's `np.ones(shape, dtype)`: an all-ones tensor of the given shape. -/
def npOnes (shape : List Nat) (dtype : Dtype) : NpArray :=
  { shape := shape, dtype := dtype, data := List.replicate shape.prod 1 }

/-- An engine-side variable (`op.Outputs()` element / gradient key).
Identity is all the façade uses. -/
structure Var where
  id : Nat
deriving DecidableEq, Repr

/-- A Python dict from variables to arrays, as an association list
(Python dicts have unique keys; key order is insertion order). -/
abbrev VarMap := List (Var × NpArray)

/-- Python's `input_map.keys() != gradient_map.keys()` compares the key
views as sets; this is the (negation-free) set equality of the key sets. -/
def varKeysEq (a b : VarMap) : Bool :=
  (a.map Prod.fst).all (fun k => (b.map Prod.fst).contains k) &&
  (b.map Prod.fst).all (fun k => (a.map Prod.fst).contains k)

/-- The device descriptor chosen in `LocalExecutionContext.__init__`:
`DeviceDescriptor_CPUDevice()` when `device_id == -1`, otherwise
`DeviceDescriptor_GPUDevice(device_id)`. -/
inductive Device where
  | cpu
  | gpu (device_id : Int)
deriving DecidableEq, Repr

/-- The exceptions this module can raise. `raise NotImplemented` in
`train`/`test`/`write` is an unconditional raise (at runtime Python 3
turns it into a `TypeError`, since `NotImplemented` is not an
exception); it is one abstract error constructor here. -/
inductive PyErr where
  | valueError (msg : String)
  | keyError (key : String)
  | notImplementedRaise
deriving DecidableEq, Repr

/-- The state of a `LocalExecutionContext` object. The fields mirror the
attributes set in `AbstractContext.__init__` and
`LocalExecutionContext.__init__`; the filesystem-derived path attributes
(`directory`, `model_dir`, `model_path`) depend on the process working
directory, are never read by the code under verification, and are
omitted. -/
structure LocalExecutionContext where
  name : String
  device_id : Int
  precision : String
  input_nodes : List Var
  clean_up : Bool
  device : Device
deriving DecidableEq, Repr

/-- The validation in the `precision` property setter: values other than
`'float'` and `'double'` raise `ValueError`. -/
def setPrecisionVal (val : String) : Except PyErr String :=
  if val = "float" ∨ val = "double" then .ok val
  else .error (.valueError ("type \"" ++ val ++ "\" is not supported"))

/-- Construction: `AbstractContext.__init__` composed with `LocalExecutionContext.__init__`:
assigning `self.precision = precision` goes through the validating setter,
so construction fails exactly when the setter rejects; the device is
selected from `device_id`. -/
def mkLocalExecutionContext (name : String) (device_id : Int)
    (precision : String) (clean_up : Bool) :
    Except PyErr LocalExecutionContext :=
  match setPrecisionVal precision with
  | .error e => .error e
  | .ok p =>
      .ok { name := name
            device_id := device_id
            precision := p
            input_nodes := []
            clean_up := clean_up
            device := if device_id = -1 then .cpu else .gpu device_id }

/-- Assigning `ctx.precision = val` on an existing context object: the
public property setter validates and overwrites `_precision`. -/
def LocalExecutionContext.setPrecision (c : LocalExecutionContext)
    (val : String) : Except PyErr LocalExecutionContext :=
  match setPrecisionVal val with
  | .ok p => .ok { c with precision := p }
  | .error e => .error e

/-- Property `AbstractContext.precision_numpy`: `np.float32` when the precision is
`'float'`, `np.float64` otherwise. -/
def LocalExecutionContext.precision_numpy (c : LocalExecutionContext) : Dtype :=
  if c.precision = "float" then .float32 else .float64

/-- The external engine operation `op`, abstracted: its output variables
(`op.Outputs()`), and the engine-side arrays that `ToNumPy()` yields after
`Forward` (per output variable) and after `Backward` (per entry of the
sanitized gradient map, whose keys `sanitize_var_map` preserves). -/
structure EngineOp where
  outputs : List Var
  forwardArr : Var → NpArray
  backwardArr : Var → NpArray

/-- The value `eval` returns: `forward_output` alone, or the tuple
`(forward_output, backward_output)`. -/
inductive EvalReturn where
  | single (forward : VarMap)
  | pair (forward backward : VarMap)
deriving DecidableEq, Repr

/-- Instrumentation of the side calls `eval` makes into the engine:
whether `op.Forward` ran, whether `op.Backward` ran, and the
`root_gradients` seed map passed to `op.Backward`. -/
structure EvalTrace where
  forwardCalled : Bool
  backwardCalled : Bool
  seedGradients : VarMap
deriving DecidableEq, Repr

/-- The guard of the key validation at the top of `eval`:
`input_map is not None and gradient_map is not None` and the key views
compare unequal. -/
def evalKeyCheckFails (input_map gradient_map : Option VarMap) : Bool :=
  input_map.isSome && gradient_map.isSome &&
    !(varKeysEq (input_map.getD []) (gradient_map.getD []))

/-- Method `LocalExecutionContext.eval`, translated from the source:
1. if both maps are supplied and their key sets differ, raise
   `ValueError('input_map and gradient_map have dijunct keys')`;
2. run `op.Forward` and reshape each output to its reversed shape;
3. `if gradient_map:` (truthy: non-`None` and non-empty) build
   `root_gradients` as ones-tensors over the forward outputs' shapes with
   dtype `precision_numpy`, run `op.Backward`, reshape each gradient to
   its reversed shape, and return the pair; otherwise return the forward
   outputs alone. -/
def LocalExecutionContext.eval (ctx : LocalExecutionContext) (op : EngineOp)
    (input_map gradient_map : Option VarMap) :
    Except PyErr EvalReturn × EvalTrace :=
  if evalKeyCheckFails input_map gradient_map then
    (.error (.valueError "input_map and gradient_map have dijunct keys"),
     { forwardCalled := false, backwardCalled := false, seedGradients := [] })
  else
    let forward_output : VarMap :=
      op.outputs.map (fun v => (v, (op.forwardArr v).reshapeReversed))
    match gradient_map with
    | some gm =>
        if gm.isEmpty then
          (.ok (.single forward_output),
           { forwardCalled := true, backwardCalled := false, seedGradients := [] })
        else
          let root_gradients : VarMap :=
            forward_output.map (fun p => (p.1, npOnes p.2.shape ctx.precision_numpy))
          let backward_output : VarMap :=
            gm.map (fun p => (p.1, (op.backwardArr p.1).reshapeReversed))
          (.ok (.pair forward_output backward_output),
           { forwardCalled := true, backwardCalled := true,
             seedGradients := root_gradients })
    | none =>
        (.ok (.single forward_output),
         { forwardCalled := true, backwardCalled := false, seedGradients := [] })

/-- Method `LocalExecutionContext.train`: unconditionally `raise NotImplemented`. -/
def LocalExecutionContext.train (_c : LocalExecutionContext)
    (_root_nodes : List Var) (_training_params : Unit)
    (_input_map : Option VarMap) (_override_existing : Bool) :
    Except PyErr Unit :=
  .error .notImplementedRaise

/-- Method `LocalExecutionContext.test`: unconditionally `raise NotImplemented`. -/
def LocalExecutionContext.test (_c : LocalExecutionContext)
    (_root_nodes : Option (List Var)) (_input_map : Option VarMap) :
    Except PyErr Unit :=
  .error .notImplementedRaise

/-- Method `LocalExecutionContext.write`: unconditionally `raise NotImplemented`. -/
def LocalExecutionContext.write (_c : LocalExecutionContext)
    (_input_map : Option VarMap) : Except PyErr Unit :=
  .error .notImplementedRaise

/-- The process-wide `_CONTEXT` dict, handle name ↦ context. -/
abbrev Registry := String → Option LocalExecutionContext

/-- The empty `_CONTEXT` dict at module load. -/
def emptyRegistry : Registry := fun _ => none

/-- Assignment `_CONTEXT[k] = c`: dict assignment, overwriting any previous entry. -/
def regInsert (reg : Registry) (k : String) (c : LocalExecutionContext) :
    Registry :=
  fun x => if x = k then some c else reg x

/-- Deletion `del _CONTEXT[k]`: removes the entry when present, raises `KeyError`
when absent. -/
def regDel (reg : Registry) (k : String) : Except PyErr Registry :=
  match reg k with
  | some _ => .ok (fun x => if x = k then none else reg x)
  | none => .error (.keyError k)

/-- Method `LocalExecutionContext.__enter__`: `_CONTEXT[self.name] = self`
(the method also returns `self`, which is the unchanged context). -/
def enterContext (reg : Registry) (c : LocalExecutionContext) : Registry :=
  regInsert reg c.name c

/-- Method `LocalExecutionContext.__exit__`: `del _CONTEXT[self.name]`. -/
def exitContext (reg : Registry) (c : LocalExecutionContext) :
    Except PyErr Registry :=
  regDel reg c.name

/-- Semantics of `with ctx: body`: `__enter__` runs, then the body
(which may itself read and write the registry and may raise), then
`__exit__` runs on every path. The resulting registry is the one after
`__exit__` acted (a failing `del` leaves the registry as the body left
it), and the error is the body's error if any, else `__exit__`'s. -/
def withContextRun (reg : Registry) (c : LocalExecutionContext)
    (body : Registry → Registry × Option PyErr) :
    Registry × Option PyErr :=
  let afterEnter := enterContext reg c
  let bodyResult := body afterEnter
  match exitContext bodyResult.1 c with
  | .ok afterExit => (afterExit, bodyResult.2)
  | .error e =>
      (bodyResult.1,
       match bodyResult.2 with
       | some b => some b
       | none => some e)

/-- The context `LocalExecutionContext(handle)` that `get_context` builds:
all other arguments take their defaults (`device_id=-1`,
`precision="float"`, `clean_up=True`). -/
def defaultContext (handle : String) : LocalExecutionContext :=
  { name := handle
    device_id := -1
    precision := "float"
    input_nodes := []
    clean_up := true
    device := .cpu }

/-- Function `get_context(handle)`: `None` is replaced by `'default'`; a missing
handle is populated with a fresh `LocalExecutionContext(handle)`; the
registry entry is returned. -/
def get_context (handle : Option String) (reg : Registry) :
    Except PyErr (LocalExecutionContext × Registry) :=
  let h := match handle with
           | none => "default"
           | some s => s
  match reg h with
  | some c => .ok (c, reg)
  | none =>
      match mkLocalExecutionContext h (-1) "float" true with
      | .ok c => .ok (c, regInsert reg h c)
      | .error e => .error e

/-- Accessor for the forward component of an `eval` return value. -/
def EvalReturn.forwardPart : EvalReturn → VarMap
  | .single f => f
  | .pair f _ => f

/-- Accessor for the backward component of an `eval` return value, when
the tuple form was returned. -/
def EvalReturn.backwardPart : EvalReturn → Option VarMap
  | .single _ => none
  | .pair _ b => some b

/-- Concrete context used to instantiate the theorems. -/
def wCtx : LocalExecutionContext := defaultContext "w"

/-- Concrete engine operation used to instantiate the theorems: one
output variable, engine-side forward array of shape `[2, 3]`, engine-side
backward array of shape `[4, 2]`. -/
def wOp : EngineOp :=
  { outputs := [⟨0⟩]
    forwardArr := fun _ => { shape := [2, 3], dtype := .float32, data := List.replicate 6 5 }
    backwardArr := fun _ => { shape := [4, 2], dtype := .float32, data := List.replicate 8 7 } }

/-- Concrete host-side array used to instantiate the theorems. -/
def wArr : NpArray := { shape := [2], dtype := .float32, data := [1, 2] }

/-- The concrete value `wCtx.eval wOp none (some [(⟨0⟩, wArr)])` returns. -/
def wRet : EvalReturn :=
  .pair [(⟨0⟩, { shape := [3, 2], dtype := .float32, data := List.replicate 6 5 })]
        [(⟨0⟩, { shape := [2, 4], dtype := .float32, data := List.replicate 8 7 })]

/-- The concrete seed gradient `eval` builds for that call. -/
def wSeed : NpArray := npOnes [3, 2] .float32

/-- Membership in a map of the form `l.map (fun v => (v, g v))` fixes the
second component. -/
theorem mem_map_fixes_snd {l : List Var} {g : Var → NpArray} {v : Var}
    {a : NpArray} (h : (v, a) ∈ l.map (fun x => (x, g x))) : a = g v := by
  rcases List.mem_map.mp h with ⟨x, _, hx⟩
  cases hx
  rfl

/-- Membership in a map of the form `l.map (fun p => (p.1, g p.1))` fixes
the second component. -/
theorem mem_map_fst_fixes_snd {l : VarMap} {g : Var → NpArray} {v : Var}
    {a : NpArray} (h : (v, a) ∈ l.map (fun p => (p.1, g p.1))) : a = g v := by
  rcases List.mem_map.mp h with ⟨p, _, hp⟩
  cases hp
  rfl

/-- Characterization of `eval` when the key validation fires. -/
theorem eval_check_true_eq (ctx : LocalExecutionContext) (op : EngineOp)
    (im gm : Option VarMap) (hck : evalKeyCheckFails im gm = true) :
    ctx.eval op im gm =
      (.error (.valueError "input_map and gradient_map have dijunct keys"),
       { forwardCalled := false, backwardCalled := false, seedGradients := [] }) := by
  simp [LocalExecutionContext.eval, hck]

/-- Characterization of `eval` when no gradient map is supplied. -/
theorem eval_gm_none_eq (ctx : LocalExecutionContext) (op : EngineOp)
    (im : Option VarMap) :
    ctx.eval op im none =
      (.ok (.single (op.outputs.map (fun v => (v, (op.forwardArr v).reshapeReversed)))),
       { forwardCalled := true, backwardCalled := false, seedGradients := [] }) := by
  simp [LocalExecutionContext.eval, evalKeyCheckFails]

/-- Characterization of `eval` when the gradient map is empty and the
key validation does not fire. -/
theorem eval_gm_empty_eq (ctx : LocalExecutionContext) (op : EngineOp)
    (im : Option VarMap) (hck : evalKeyCheckFails im (some []) = false) :
    ctx.eval op im (some []) =
      (.ok (.single (op.outputs.map (fun v => (v, (op.forwardArr v).reshapeReversed)))),
       { forwardCalled := true, backwardCalled := false, seedGradients := [] }) := by
  simp [LocalExecutionContext.eval, hck]

/-- Characterization of `eval` when the gradient map is non-empty and
the key validation does not fire: forward and backward both run, the
seeds are ones over the forward outputs, both result maps are reshaped. -/
theorem eval_nonempty_gm_eq (ctx : LocalExecutionContext) (op : EngineOp)
    (im : Option VarMap) (p : Var × NpArray) (t : VarMap)
    (hck : evalKeyCheckFails im (some (p :: t)) = false) :
    ctx.eval op im (some (p :: t)) =
      (.ok (.pair
         (op.outputs.map (fun v => (v, (op.forwardArr v).reshapeReversed)))
         ((p :: t).map (fun q => (q.1, (op.backwardArr q.1).reshapeReversed)))),
       { forwardCalled := true, backwardCalled := true,
         seedGradients :=
           (op.outputs.map (fun v => (v, (op.forwardArr v).reshapeReversed))).map
             (fun q => (q.1, npOnes q.2.shape ctx.precision_numpy)) }) := by
  simp [LocalExecutionContext.eval, hck]

/-- C1: when both the input map and the gradient map are supplied and
their key sets differ, `eval` fails with the disjoint-keys `ValueError`
and no forward computation is performed. -/
theorem C1_disjoint_keys_fails_before_forward
    (ctx : LocalExecutionContext) (op : EngineOp) (im gm : VarMap)
    (h : varKeysEq im gm = false) :
    ctx.eval op (some im) (some gm) =
      (.error (.valueError "input_map and gradient_map have dijunct keys"),
       { forwardCalled := false, backwardCalled := false, seedGradients := [] }) := by
  simp [LocalExecutionContext.eval, evalKeyCheckFails, h]

/-- C1 witness: a concrete call with disjoint singleton key sets fails
with the disjoint-keys error, forward not called. -/
theorem C1_witness :
    varKeysEq [(⟨0⟩, wArr)] [(⟨1⟩, wArr)] = false ∧
    wCtx.eval wOp (some [(⟨0⟩, wArr)]) (some [(⟨1⟩, wArr)]) =
      (.error (.valueError "input_map and gradient_map have dijunct keys"),
       { forwardCalled := false, backwardCalled := false, seedGradients := [] }) :=
  ⟨by decide,
   C1_disjoint_keys_fails_before_forward wCtx wOp [(⟨0⟩, wArr)] [(⟨1⟩, wArr)] (by decide)⟩

/-- C9: `train`, `test` and `write` unconditionally raise; no call
returns a value (and none touches the context, which the methods only
receive). -/
theorem C9_train_test_write_always_raise
    (c : LocalExecutionContext) (rn : List Var) (tp : Unit)
    (im1 : Option VarMap) (oe : Bool) (rn2 : Option (List Var))
    (im2 im3 : Option VarMap) :
    c.train rn tp im1 oe = .error .notImplementedRaise ∧
    c.test rn2 im2 = .error .notImplementedRaise ∧
    c.write im3 = .error .notImplementedRaise :=
  ⟨rfl, rfl, rfl⟩

/-- C4: constructing a context with a precision other than `'float'` or
`'double'` fails immediately with the setter's `ValueError`; with
`'float'` or `'double'` construction succeeds and stores that precision. -/
theorem C4_precision_validated_at_construction
    (name : String) (device_id : Int) (precision : String) (clean_up : Bool) :
    (precision ≠ "float" → precision ≠ "double" →
      mkLocalExecutionContext name device_id precision clean_up =
        .error (.valueError ("type \"" ++ precision ++ "\" is not supported"))) ∧
    (precision = "float" ∨ precision = "double" →
      ∃ c, mkLocalExecutionContext name device_id precision clean_up = .ok c ∧
        c.precision = precision) := by
  constructor
  · intro h1 h2
    simp [mkLocalExecutionContext, setPrecisionVal, h1, h2]
  · intro h
    have hval : setPrecisionVal precision = .ok precision := by
      simp [setPrecisionVal, h]
    refine ⟨{ name := name, device_id := device_id, precision := precision,
              input_nodes := [], clean_up := clean_up,
              device := if device_id = -1 then .cpu else .gpu device_id },
            ?_, rfl⟩
    simp [mkLocalExecutionContext, hval]

/-- C4 witness: precision `"int32"` is rejected at construction with the
`ValueError`; precision `"double"` is accepted and stored. -/
theorem C4_witness :
    mkLocalExecutionContext "w" (-1) "int32" true =
      .error (.valueError "type \"int32\" is not supported") ∧
    ∃ c, mkLocalExecutionContext "w" (-1) "double" true = .ok c ∧
      c.precision = "double" :=
  ⟨(C4_precision_validated_at_construction "w" (-1) "int32" true).1
     (by decide) (by decide),
   (C4_precision_validated_at_construction "w" (-1) "double" true).2
     (Or.inr rfl)⟩

/-- C2 counterexample: a call with a non-empty gradient map whose keys
are disjoint from a supplied input map performs no backward pass and
returns no pair — it raises — refuting the claim as quantified over
every call. -/
theorem C2_counterexample :
    (([(⟨1⟩, wArr)] : VarMap) ≠ []) ∧
    (wCtx.eval wOp (some [(⟨0⟩, wArr)]) (some [(⟨1⟩, wArr)])).2.backwardCalled
      = false ∧
    (wCtx.eval wOp (some [(⟨0⟩, wArr)]) (some [(⟨1⟩, wArr)])).1 =
      .error (.valueError "input_map and gradient_map have dijunct keys") := by
  refine ⟨by decide, by decide, by decide⟩

/-- C2 amended: for every call to `eval` in which the disjoint-keys
validation does not fire, a backward pass runs iff the gradient map is
non-empty; non-empty yields the `(forward, backward)` pair, `None` or
empty yields only the forward outputs with no backward pass. -/
theorem C2_amended_backward_iff_nonempty
    (ctx : LocalExecutionContext) (op : EngineOp) (im gm : Option VarMap)
    (h : evalKeyCheckFails im gm = false) :
    ((ctx.eval op im gm).2.backwardCalled = true ↔
      ∃ g, gm = some g ∧ g ≠ []) ∧
    (∀ g, gm = some g → g ≠ [] →
      ∃ f b, (ctx.eval op im gm).1 = .ok (.pair f b)) ∧
    ((gm = none ∨ gm = some []) →
      (ctx.eval op im gm).2.backwardCalled = false ∧
      ∃ f, (ctx.eval op im gm).1 = .ok (.single f)) := by
  cases gm with
  | none =>
      rw [eval_gm_none_eq ctx op im]
      simp
  | some g =>
      cases g with
      | nil =>
          rw [eval_gm_empty_eq ctx op im h]
          simp
      | cons p t =>
          rw [eval_nonempty_gm_eq ctx op im p t h]
          simp

/-- C2 witness: with no input map and a non-empty singleton gradient
map, the amended statement is discharged at a concrete call. -/
theorem C2_witness :
    ((wCtx.eval wOp none (some [(⟨0⟩, wArr)])).2.backwardCalled = true ↔
      ∃ g, (some [(⟨0⟩, wArr)] : Option VarMap) = some g ∧ g ≠ []) ∧
    (∀ g, (some [(⟨0⟩, wArr)] : Option VarMap) = some g → g ≠ [] →
      ∃ f b, (wCtx.eval wOp none (some [(⟨0⟩, wArr)])).1 = .ok (.pair f b)) ∧
    (((some [(⟨0⟩, wArr)] : Option VarMap) = none ∨
        (some [(⟨0⟩, wArr)] : Option VarMap) = some []) →
      (wCtx.eval wOp none (some [(⟨0⟩, wArr)])).2.backwardCalled = false ∧
      ∃ f, (wCtx.eval wOp none (some [(⟨0⟩, wArr)])).1 = .ok (.single f)) :=
  C2_amended_backward_iff_nonempty wCtx wOp none (some [(⟨0⟩, wArr)]) (by decide)

/-- C3: every seed gradient `eval` passes to `Backward` is the all-ones
tensor over the corresponding forward output's host-side shape, with the
context's precision dtype (float32 for precision "float", float64 for
"double"). -/
theorem C3_seed_gradients_are_ones
    (ctx : LocalExecutionContext) (op : EngineOp) (im : Option VarMap)
    (gm : VarMap) (hck : evalKeyCheckFails im (some gm) = false)
    (hne : gm ≠ []) (ret : EvalReturn)
    (hret : (ctx.eval op im (some gm)).1 = .ok ret) :
    ∀ v a, (v, a) ∈ (ctx.eval op im (some gm)).2.seedGradients →
      ∃ o, (v, o) ∈ ret.forwardPart ∧
        a.shape = o.shape ∧
        a.data = List.replicate o.shape.prod 1 ∧
        a.dtype = ctx.precision_numpy ∧
        (ctx.precision = "float" → a.dtype = .float32) ∧
        (ctx.precision = "double" → a.dtype = .float64) := by
  cases gm with
  | nil => exact absurd rfl hne
  | cons p t =>
      rw [eval_nonempty_gm_eq ctx op im p t hck] at hret ⊢
      obtain rfl := (Except.ok.inj hret).symm
      intro v a hmem
      rcases List.mem_map.mp hmem with ⟨q, hqF, hq⟩
      obtain ⟨h1, h2⟩ := Prod.mk.inj hq
      subst h1
      subst h2
      refine ⟨q.2, hqF, rfl, rfl, rfl, ?_, ?_⟩
      · intro hf
        simp [npOnes, LocalExecutionContext.precision_numpy, hf]
      · intro hd
        simp [npOnes, LocalExecutionContext.precision_numpy, hd]

/-- C3 witness: at a concrete call the seed gradient for the single
output is the ones-tensor over the reshaped forward output's shape
`[3, 2]` with dtype float32. -/
theorem C3_witness :
    (wCtx.eval wOp none (some [(⟨0⟩, wArr)])).1 = .ok wRet ∧
    ((⟨0⟩, wSeed) ∈ (wCtx.eval wOp none (some [(⟨0⟩, wArr)])).2.seedGradients) ∧
    ∃ o, ((⟨0⟩ : Var), o) ∈ wRet.forwardPart ∧
      wSeed.shape = o.shape ∧
      wSeed.data = List.replicate o.shape.prod 1 ∧
      wSeed.dtype = wCtx.precision_numpy ∧
      (wCtx.precision = "float" → wSeed.dtype = .float32) ∧
      (wCtx.precision = "double" → wSeed.dtype = .float64) :=
  ⟨by decide, by decide,
   C3_seed_gradients_are_ones wCtx wOp none [(⟨0⟩, wArr)] (by decide) (by decide)
     wRet (by decide) ⟨0⟩ wSeed (by decide)⟩

/-- C5 counterexample: the public precision setter reassigns the
precision of an already constructed context from "float" to "double",
so the precision policy is not immutable after construction. -/
theorem C5_counterexample :
    (mkLocalExecutionContext "ctx" (-1) "float" true).map
        LocalExecutionContext.precision = .ok "float" ∧
    ((mkLocalExecutionContext "ctx" (-1) "float" true).bind
        (fun c => c.setPrecision "double")).map
        LocalExecutionContext.precision = .ok "double" := by
  refine ⟨by decide, by decide⟩

/-- C5 amended: the device binding and the name are fixed by the
operations of the context, but the precision policy is mutable after
construction: the public precision setter accepts reassignment to
`'float'` or `'double'`, overwriting the stored precision with the
assigned value while leaving device, device id and name unchanged, and
rejects every other value with the setter's `ValueError`. -/
theorem C5_amended_precision_mutable_via_setter
    (c : LocalExecutionContext) (val : String) :
    (val = "float" ∨ val = "double" →
      c.setPrecision val = .ok { c with precision := val }) ∧
    (val ≠ "float" → val ≠ "double" →
      c.setPrecision val =
        .error (.valueError ("type \"" ++ val ++ "\" is not supported"))) ∧
    (∀ c2, c.setPrecision val = .ok c2 →
      c2.device = c.device ∧ c2.device_id = c.device_id ∧ c2.name = c.name) := by
  refine ⟨?_, ?_, ?_⟩
  · intro h
    simp [LocalExecutionContext.setPrecision, setPrecisionVal, h]
  · intro h1 h2
    simp [LocalExecutionContext.setPrecision, setPrecisionVal, h1, h2]
  · intro c2 h
    by_cases hv : val = "float" ∨ val = "double"
    · simp [LocalExecutionContext.setPrecision, setPrecisionVal, hv] at h
      subst h
      exact ⟨rfl, rfl, rfl⟩
    · simp [LocalExecutionContext.setPrecision, setPrecisionVal, hv] at h

/-- C5 witness: the setter applied to the concrete context built with
precision "float" succeeds with "double" and changes the stored
precision. -/
theorem C5_witness :
    wCtx.setPrecision "double" = .ok { wCtx with precision := "double" } ∧
    wCtx.precision = "float" :=
  ⟨(C5_amended_precision_mutable_via_setter wCtx "double").1 (Or.inr rfl), rfl⟩

/-- C6: every array a successful `eval` returns, forward output or
backward gradient, is the engine-side array with its shape reversed and
its payload untouched — the dimension-order adaptation is applied
exactly once, at exit. -/
theorem C6_reshape_applied_once_at_exit
    (ctx : LocalExecutionContext) (op : EngineOp) (im gm : Option VarMap)
    (ret : EvalReturn) (hret : (ctx.eval op im gm).1 = .ok ret) :
    (∀ v a, (v, a) ∈ ret.forwardPart →
      a.shape = (op.forwardArr v).shape.reverse ∧
      a.data = (op.forwardArr v).data ∧
      a = (op.forwardArr v).reshapeReversed) ∧
    (∀ bw, ret.backwardPart = some bw → ∀ v a, (v, a) ∈ bw →
      a.shape = (op.backwardArr v).shape.reverse ∧
      a.data = (op.backwardArr v).data ∧
      a = (op.backwardArr v).reshapeReversed) := by
  cases hck : evalKeyCheckFails im gm with
  | true =>
      rw [eval_check_true_eq ctx op im gm hck] at hret
      exact absurd hret (by simp)
  | false =>
      cases gm with
      | none =>
          rw [eval_gm_none_eq ctx op im] at hret
          obtain rfl := (Except.ok.inj hret).symm
          refine ⟨?_, ?_⟩
          · intro v a hmem
            have ha := mem_map_fixes_snd hmem
            subst ha
            exact ⟨rfl, rfl, rfl⟩
          · intro bw hbw
            exact absurd hbw (by simp [EvalReturn.backwardPart])
      | some g =>
          cases g with
          | nil =>
              rw [eval_gm_empty_eq ctx op im hck] at hret
              obtain rfl := (Except.ok.inj hret).symm
              refine ⟨?_, ?_⟩
              · intro v a hmem
                have ha := mem_map_fixes_snd hmem
                subst ha
                exact ⟨rfl, rfl, rfl⟩
              · intro bw hbw
                exact absurd hbw (by simp [EvalReturn.backwardPart])
          | cons p t =>
              rw [eval_nonempty_gm_eq ctx op im p t hck] at hret
              obtain rfl := (Except.ok.inj hret).symm
              refine ⟨?_, ?_⟩
              · intro v a hmem
                have ha := mem_map_fixes_snd hmem
                subst ha
                exact ⟨rfl, rfl, rfl⟩
              · intro bw hbw
                obtain rfl := (Option.some.inj hbw).symm
                intro v a hmem
                have ha := @mem_map_fst_fixes_snd (p :: t)
                  (fun x => (op.backwardArr x).reshapeReversed) v a hmem
                subst ha
                exact ⟨rfl, rfl, rfl⟩

/-- C6 witness: at a concrete call the returned forward array and the
returned backward array are the engine arrays with reversed shapes and
unchanged payloads. -/
theorem C6_witness :
    ({ shape := [3, 2], dtype := .float32, data := List.replicate 6 5 } :
        NpArray).shape = (wOp.forwardArr ⟨0⟩).shape.reverse ∧
    ({ shape := [3, 2], dtype := .float32, data := List.replicate 6 5 } :
        NpArray) = (wOp.forwardArr ⟨0⟩).reshapeReversed ∧
    ({ shape := [2, 4], dtype := .float32, data := List.replicate 8 7 } :
        NpArray).shape = (wOp.backwardArr ⟨0⟩).shape.reverse ∧
    ({ shape := [2, 4], dtype := .float32, data := List.replicate 8 7 } :
        NpArray) = (wOp.backwardArr ⟨0⟩).reshapeReversed := by
  have h := C6_reshape_applied_once_at_exit wCtx wOp none
    (some [(⟨0⟩, wArr)]) wRet (by decide)
  obtain ⟨hf1, _, hf3⟩ :=
    h.1 ⟨0⟩ { shape := [3, 2], dtype := .float32, data := List.replicate 6 5 }
      (by decide)
  obtain ⟨hb1, _, hb3⟩ :=
    h.2 [(⟨0⟩, { shape := [2, 4], dtype := .float32, data := List.replicate 8 7 })]
      (by decide) ⟨0⟩
      { shape := [2, 4], dtype := .float32, data := List.replicate 8 7 }
      (by decide)
  exact ⟨hf1, hf3, hb1, hb3⟩

/-- C7: entering the scoped context registers the context in `_CONTEXT`
under its name, and after the scoped use ends — whether the body
succeeded or raised — the registry has no entry for that name. -/
theorem C7_registry_entry_scoped
    (reg : Registry) (c : LocalExecutionContext)
    (body : Registry → Registry × Option PyErr) :
    enterContext reg c c.name = some c ∧
    (withContextRun reg c body).1 c.name = none := by
  constructor
  · simp [enterContext, regInsert]
  · unfold withContextRun exitContext regDel
    cases hb : (body (enterContext reg c)).1 c.name with
    | some c0 => simp [hb]
    | none => simp [hb]

/-- C8: with no input map supplied, the key validation cannot fire:
`eval` with `input_map = None` and any non-empty gradient map performs
the backward pass and returns the pair, whatever the gradient keys are. -/
theorem C8_input_none_skips_check
    (ctx : LocalExecutionContext) (op : EngineOp) (gm : VarMap)
    (hne : gm ≠ []) :
    evalKeyCheckFails none (some gm) = false ∧
    (ctx.eval op none (some gm)).2.backwardCalled = true ∧
    ∃ f b, (ctx.eval op none (some gm)).1 = .ok (.pair f b) := by
  have hck : evalKeyCheckFails none (some gm) = false := rfl
  cases gm with
  | nil => exact absurd rfl hne
  | cons p t =>
      rw [eval_nonempty_gm_eq ctx op none p t hck]
      exact ⟨hck, rfl, _, _, rfl⟩

/-- C8 witness: a gradient map whose key appears in no input map (none
was supplied) still triggers the backward pass and the pair return. -/
theorem C8_witness :
    evalKeyCheckFails none (some [(⟨5⟩, wArr)]) = false ∧
    (wCtx.eval wOp none (some [(⟨5⟩, wArr)])).2.backwardCalled = true ∧
    ∃ f b, (wCtx.eval wOp none (some [(⟨5⟩, wArr)])).1 = .ok (.pair f b) :=
  C8_input_none_skips_check wCtx wOp [(⟨5⟩, wArr)] (by decide)

/-- C10: `get_context` with handle `None` behaves exactly as with
`'default'`; a missing handle is populated with the default-constructed
context and registered under the handle; a repeated call with the same
handle returns the identical context and leaves the registry unchanged. -/
theorem C10_get_context_idempotent_per_handle
    (reg : Registry) (h : String) :
    get_context none reg = get_context (some "default") reg ∧
    (reg h = none →
      get_context (some h) reg =
        .ok (defaultContext h, regInsert reg h (defaultContext h)) ∧
      regInsert reg h (defaultContext h) h = some (defaultContext h)) ∧
    (∀ c reg2, get_context (some h) reg = .ok (c, reg2) →
      get_context (some h) reg2 = .ok (c, reg2)) := by
  have hmk : mkLocalExecutionContext h (-1) "float" true =
      .ok (defaultContext h) := by
    simp [mkLocalExecutionContext, setPrecisionVal, defaultContext]
  refine ⟨rfl, ?_, ?_⟩
  · intro h0
    constructor
    · simp [get_context, h0, hmk]
    · simp [regInsert]
  · intro c reg2 hok
    cases hr : reg h with
    | some c0 =>
        simp [get_context, hr] at hok ⊢
        obtain ⟨rfl, rfl⟩ := hok
        simp [hr]
    | none =>
        simp [get_context, hr, hmk] at hok
        obtain ⟨rfl, rfl⟩ := hok
        simp [get_context, regInsert]

/-- C10 witness: on the empty registry, looking up the default handle
registers the default context, and the repeated call returns the same
context and the same registry. -/
theorem C10_witness :
    get_context (some "default") emptyRegistry =
      .ok (defaultContext "default",
           regInsert emptyRegistry "default" (defaultContext "default")) ∧
    get_context (some "default")
        (regInsert emptyRegistry "default" (defaultContext "default")) =
      .ok (defaultContext "default",
           regInsert emptyRegistry "default" (defaultContext "default")) := by
  have h10 := C10_get_context_idempotent_per_handle emptyRegistry "default"
  have h1 := (h10.2.1 rfl).1
  exact ⟨h1, h10.2.2 _ _ h1⟩

end CNTK
